import Mathlib

/-!
Verification of the pulse-server project-tracking backend (src/index.js).

The health-score engine is embedded shallowly: JavaScript numbers become
rationals (ℚ), `Math.round` becomes `⌊x + 1/2⌋`, collections become lists,
and the MongoDB-backed request handlers become pure functions over an
explicit `Store` state.  Each definition mirrors the corresponding source
function; the `calculateHealth` model reproduces the JavaScript operator
precedence of `a + b.satisfaction || 5` (the sum resets to 5 whenever it
evaluates to `NaN` or `0`), with a missing `satisfaction` field modelled
as `Option.none`.
-/

namespace PulseServer

/-- A check-in record, as inserted by `POST /api/checkins`
(src/index.js lines 586-604). -/
structure Checkin where
  projectId : String
  employeeId : String
  week : String
  confidenceLevel : ℚ
  completionPercentage : ℚ
deriving Repr, DecidableEq

/-- A feedback record.  The server's feedback endpoints persist
`satisfactionRating` (src/index.js lines 536-559 and 659-672); the
`satisfaction` field read by `calculateHealth` is therefore optional —
`none` models a record in which the field is absent (JS `undefined`). -/
structure Feedback where
  projectId : String
  satisfactionRating : ℚ
  satisfaction : Option ℚ
  communicationRating : ℚ
  flaggedIssue : Bool
deriving Repr, DecidableEq

/-- A risk record, as inserted by `POST /api/risks`
(src/index.js lines 766-786). -/
structure Risk where
  projectId : String
  title : String
  severity : String
  status : String
  employeeId : String
deriving Repr, DecidableEq

/-- A project record (src/index.js lines 409-427).  Dates and timestamps
are modelled as naturals. -/
structure Project where
  id : String
  name : String
  description : String
  startDate : ℕ
  endDate : ℕ
  client : String
  employees : List String
  status : String
  healthScore : ℤ
  createdAt : ℕ
  updatedAt : ℕ
deriving Repr, DecidableEq

/-- JavaScript `Math.round`: round half toward positive infinity. -/
def jsRound (x : ℚ) : ℤ := ⌊x + 1/2⌋

/-- Clamp an already-rounded score into [0, 100], mirroring
`if(healthScore>100) healthScore=100; if(healthScore<0) healthScore=0;`
(src/index.js lines 729-730). -/
def clampScore (z : ℤ) : ℤ := if z > 100 then 100 else if z < 0 then 0 else z

/-- Clamp a raw (unrounded) score into [0, 100], mirroring
`if(score > 100) score = 100; if(score < 0) score = 0;`
(src/index.js lines 326-327). -/
def clampQ (x : ℚ) : ℚ := if x > 100 then 100 else if x < 0 then 0 else x

/-! ## Policy A: the single-project health endpoint
(`GET /api/projects/:id/health`, src/index.js lines 715-742) -/

/-- `feedbacks.length ? feedbacks.reduce((a,b)=>a+b.satisfactionRating,0)/feedbacks.length : 5`
(src/index.js line 721). -/
def avgClient (feedbacks : List Feedback) : ℚ :=
  if feedbacks.length ≠ 0 then
    (feedbacks.foldl (fun a b => a + b.satisfactionRating) 0) / feedbacks.length
  else 5

/-- `checkins.length ? checkins.reduce((a,b)=>a+b.confidenceLevel,0)/checkins.length : 5`
(src/index.js line 724). -/
def avgConf (checkins : List Checkin) : ℚ :=
  if checkins.length ≠ 0 then
    (checkins.foldl (fun a b => a + b.confidenceLevel) 0) / checkins.length
  else 5

/-- `checkins.length ? checkins.reduce((a,b)=>a+b.completionPercentage,0)/checkins.length : 0`
(src/index.js line 725). -/
def avgCompletion (checkins : List Checkin) : ℚ :=
  if checkins.length ≠ 0 then
    (checkins.foldl (fun a b => a + b.completionPercentage) 0) / checkins.length
  else 0

/-- `feedbacks.filter(f=>f.flaggedIssue).length` (src/index.js line 726). -/
def flaggedCount (feedbacks : List Feedback) : ℕ :=
  (feedbacks.filter (fun f => f.flaggedIssue)).length

/-- The raw (pre-round, pre-clamp) Policy A score
`avgClient*20*0.4 + avgConf*20*0.4 + avgCompletion*0.2 - flaggedCount*5`
(src/index.js line 728). -/
def rawScoreA (feedbacks : List Feedback) (checkins : List Checkin) : ℚ :=
  avgClient feedbacks * 20 * (2/5) + avgConf checkins * 20 * (2/5)
    + avgCompletion checkins * (1/5) - (flaggedCount feedbacks : ℚ) * 5

/-- The Policy A health score: rounded then clamped
(src/index.js lines 728-730). -/
def computeHealthScore (feedbacks : List Feedback) (checkins : List Checkin) : ℤ :=
  clampScore (jsRound (rawScoreA feedbacks checkins))

/-- The status classification (src/index.js lines 732-734). -/
def statusOf (score : ℤ) : String :=
  if score < 60 then "Critical" else if score < 80 then "At Risk" else "On Track"

/-! ## Policy B: `calculateHealth` (src/index.js lines 310-330) -/

/-- `risks.filter(r => r.severity === "High" && r.status === "Open").length`
(src/index.js line 314). -/
def highRisksCount (risks : List Risk) : ℕ :=
  (risks.filter (fun r => r.severity == "High" && r.status == "Open")).length

/-- One step of `feedbacks.reduce((a,b)=>a+b.satisfaction || 5,0)`
(src/index.js line 322).  By JS operator precedence this is
`(a + b.satisfaction) || 5`: if `b.satisfaction` is absent, `a + undefined`
is `NaN`, which is falsy, so the accumulator resets to 5; likewise a sum
that evaluates to `0` resets to 5. -/
def satisfactionStep (a : ℚ) (f : Feedback) : ℚ :=
  match f.satisfaction with
  | none => 5
  | some s => if a + s = 0 then 5 else a + s

/-- `feedbacks.length ? feedbacks.reduce((a,b)=>a+b.satisfaction || 5,0)/feedbacks.length : 5`
(src/index.js line 322). -/
def avgSatisfactionB (feedbacks : List Feedback) : ℚ :=
  if feedbacks.length ≠ 0 then
    (feedbacks.foldl satisfactionStep 0) / feedbacks.length
  else 5

/-- `calculateHealth(project, risks, checkins, feedbacks)`
(src/index.js lines 310-330): start at 100, subtract 10 per Open/High
risk, multiply by `avgConfidence/5`, multiply by `avgSatisfaction/5`,
clamp to [0,100], then `Math.round`. -/
def calculateHealth (project : Project) (risks : List Risk)
    (checkins : List Checkin) (feedbacks : List Feedback) : ℤ :=
  let score1 : ℚ := 100 - (highRisksCount risks : ℚ) * 10
  let score2 : ℚ := score1 * (avgConf checkins / 5)
  let score3 : ℚ := score2 * (avgSatisfactionB feedbacks / 5)
  jsRound (clampQ score3)

/-! ## The store and the stateful handlers -/

/-- The four MongoDB collections the scoring engine touches. -/
structure Store where
  projects : List Project
  checkins : List Checkin
  feedbacks : List Feedback
  risks : List Risk
deriving Repr, DecidableEq

/-- `db.collection("projects").findOne({ _id: new ObjectId(projectId) })`. -/
def findProject (store : Store) (pid : String) : Option Project :=
  store.projects.find? (fun p => p.id == pid)

/-- `db.collection("feedbacks").find({ projectId }).toArray()`. -/
def feedbacksFor (store : Store) (pid : String) : List Feedback :=
  store.feedbacks.filter (fun f => f.projectId == pid)

/-- `db.collection("checkins").find({ projectId }).toArray()`. -/
def checkinsFor (store : Store) (pid : String) : List Checkin :=
  store.checkins.filter (fun c => c.projectId == pid)

/-- The `GET /api/projects/:id/health` handler (src/index.js lines
715-742): look up the project (404 if absent, nothing written), compute
the Policy A score and status, persist `healthScore`, `status`, and
`updatedAt` onto the project, and return the pair. -/
def healthEndpoint (store : Store) (pid : String) (now : ℕ) :
    Except String (ℤ × String) × Store :=
  match findProject store pid with
  | none => (Except.error "Project not found", store)
  | some _ =>
      let fbs := feedbacksFor store pid
      let cks := checkinsFor store pid
      let score := computeHealthScore fbs cks
      let st := statusOf score
      let projects2 := store.projects.map (fun p =>
        if p.id == pid then
          { p with healthScore := score, status := st, updatedAt := now }
        else p)
      (Except.ok (score, st), { store with projects := projects2 })

/-- The `GET /api/admin/projects/missing-checkins` handler (src/index.js
lines 640-655): fetch the checkins of the current week and keep the
projects for which none of them matches. -/
def missingCheckinsThisPeriod (store : Store) (week : String) : List Project :=
  let weekCheckins := store.checkins.filter (fun c => c.week == week)
  store.projects.filter (fun p => ! weekCheckins.any (fun c => c.projectId == p.id))

/-! ## Helper lemmas -/

theorem foldl_add_eq_sum {α : Type} (g : α → ℚ) (l : List α) (init : ℚ) :
    l.foldl (fun a b => a + g b) init = init + (l.map g).sum := by
  induction l generalizing init with
  | nil => simp
  | cons x xs ih => simp [List.foldl_cons, ih, add_assoc]

theorem jsRound_mono {x y : ℚ} (h : x ≤ y) : jsRound x ≤ jsRound y :=
  Int.floor_le_floor (by linarith)

theorem jsRound_intCast (z : ℤ) : jsRound (z : ℚ) = z := by
  unfold jsRound
  rw [show ((z : ℚ) + 1/2) = (1/2 : ℚ) + z by ring, Int.floor_add_int]
  norm_num

theorem jsRound_le_of_le {x : ℚ} {c : ℤ} (h : x ≤ (c : ℚ)) : jsRound x ≤ c := by
  have := jsRound_mono h
  rwa [jsRound_intCast] at this

theorem le_jsRound_of_le {x : ℚ} {c : ℤ} (h : (c : ℚ) ≤ x) : c ≤ jsRound x := by
  have := jsRound_mono h
  rwa [jsRound_intCast] at this

theorem jsRound_sub_intCast (x : ℚ) (n : ℤ) : jsRound (x - (n : ℚ)) = jsRound x - n := by
  unfold jsRound
  rw [show (x - (n:ℚ) + 1/2) = (x + 1/2) - (n:ℚ) by ring, Int.floor_sub_int]

theorem clampScore_nonneg (z : ℤ) : 0 ≤ clampScore z := by
  unfold clampScore
  split <;> [norm_num; (split <;> omega)]

theorem clampScore_le (z : ℤ) : clampScore z ≤ 100 := by
  unfold clampScore
  split <;> [norm_num; (split <;> omega)]

theorem clampScore_eq_self {z : ℤ} (h0 : 0 ≤ z) (h1 : z ≤ 100) : clampScore z = z := by
  unfold clampScore
  split <;> [omega; (split <;> omega)]

theorem clampQ_nonneg (x : ℚ) : 0 ≤ clampQ x := by
  unfold clampQ
  split_ifs <;> linarith

theorem clampQ_le (x : ℚ) : clampQ x ≤ 100 := by
  unfold clampQ
  split_ifs <;> linarith

theorem clampQ_mono {x y : ℚ} (h : x ≤ y) : clampQ x ≤ clampQ y := by
  unfold clampQ
  split_ifs <;> linarith

/-- The two clamp/round orders agree: rounding the clamped raw score equals
clamping the rounded raw score. -/
theorem jsRound_clampQ (x : ℚ) : jsRound (clampQ x) = clampScore (jsRound x) := by
  unfold clampQ
  by_cases h100 : x > 100
  · simp only [if_pos h100]
    rw [show (100 : ℚ) = ((100 : ℤ) : ℚ) by norm_num, jsRound_intCast]
    have : (100 : ℤ) ≤ jsRound x := le_jsRound_of_le (by push_cast; linarith)
    unfold clampScore
    split <;> omega
  · simp only [if_neg h100]
    by_cases h0 : x < 0
    · simp only [if_pos h0]
      rw [show (0 : ℚ) = ((0 : ℤ) : ℚ) by norm_num, jsRound_intCast]
      have : jsRound x ≤ 0 := jsRound_le_of_le (by push_cast; linarith)
      unfold clampScore
      split <;> omega
    · simp only [if_neg h0]
      have hle : jsRound x ≤ 100 := jsRound_le_of_le (by push_cast; linarith)
      have hge : 0 ≤ jsRound x := le_jsRound_of_le (by push_cast; linarith)
      exact (clampScore_eq_self hge hle).symm

/-! ## Spec-side Policy B (for the refinement claim)

These definitions follow the wording of §4.1 Policy B of the spec —
`avgSatisfaction = mean(feedback.satisfaction), default 5 if none`,
`avgConfidence = mean(checkin.confidenceLevel), default 5 if none`,
`score = clamp(round(score), 0, 100)` — to be compared with the
`calculateHealth` embedded from the source. -/

/-- Spec wording: mean of the checkins' confidence levels, default 5. -/
def avgConfSpec (checkins : List Checkin) : ℚ :=
  if checkins.length ≠ 0 then
    (checkins.map (fun c => c.confidenceLevel)).sum / checkins.length
  else 5

/-- Spec wording: mean of the feedbacks' satisfaction values, default 5.
A missing satisfaction field contributes its `getD 0` default; the
refinement theorem only compares the two definitions on feedback lists
whose satisfaction fields are all present. -/
def avgSatisfactionSpec (feedbacks : List Feedback) : ℚ :=
  if feedbacks.length ≠ 0 then
    (feedbacks.map (fun f => f.satisfaction.getD 0)).sum / feedbacks.length
  else 5

/-- Spec wording of Policy B: start at 100, subtract 10 per Open/High
risk, multiply by `avgConfidence/5`, multiply by `avgSatisfaction/5`,
then `clamp(round(score), 0, 100)`. -/
def calculateHealthSpec (risks : List Risk) (checkins : List Checkin)
    (feedbacks : List Feedback) : ℤ :=
  let score1 : ℚ := 100 - 10 * (highRisksCount risks : ℚ)
  let score2 : ℚ := score1 * (avgConfSpec checkins / 5)
  let score3 : ℚ := score2 * (avgSatisfactionSpec feedbacks / 5)
  clampScore (jsRound score3)

/-! ## Lemmas about the satisfaction fold -/

/-- When every satisfaction field is present and positive, the reduce of
`a + b.satisfaction || 5` never resets and computes the plain sum. -/
theorem foldl_satisfactionStep_pos (l : List Feedback) :
    ∀ a : ℚ, 0 ≤ a → (∀ f ∈ l, ∃ s, f.satisfaction = some s ∧ 0 < s) →
      l.foldl satisfactionStep a = a + (l.map (fun f => f.satisfaction.getD 0)).sum := by
  induction l with
  | nil => intro a _ _; simp
  | cons f rest ih =>
      intro a ha hall
      obtain ⟨s, hs, hspos⟩ := hall f (List.mem_cons_self f rest)
      have hstep : satisfactionStep a f = a + s := by
        simp only [satisfactionStep, hs]
        rw [if_neg (by positivity : ¬ a + s = 0)]
      rw [List.foldl_cons, hstep,
        ih (a + s) (by positivity) (fun g hg => hall g (List.mem_cons_of_mem f hg))]
      simp [hs]
      ring

/-- When every satisfaction field is absent, each step of the reduce of
`a + b.satisfaction || 5` resets the accumulator to 5, so the fold of a
non-empty list is 5. -/
theorem foldl_satisfactionStep_none (l : List Feedback) :
    ∀ a : ℚ, (∀ f ∈ l, f.satisfaction = none) → l ≠ [] →
      l.foldl satisfactionStep a = 5 := by
  induction l with
  | nil => intro a _ h; exact absurd rfl h
  | cons f rest ih =>
      intro a hall _
      have hf : f.satisfaction = none := hall f (List.mem_cons_self f rest)
      have hstep : satisfactionStep a f = 5 := by unfold satisfactionStep; rw [hf]
      rw [List.foldl_cons, hstep]
      cases rest with
      | nil => simp
      | cons g rest2 =>
          exact ih 5 (fun x hx => hall x (List.mem_cons_of_mem f hx)) (by simp)

/-- The accumulator of the satisfaction reduce stays nonnegative when
the present satisfaction values are nonnegative. -/
theorem foldl_satisfactionStep_nonneg (l : List Feedback) :
    ∀ a : ℚ, 0 ≤ a → (∀ f ∈ l, ∀ s, f.satisfaction = some s → 0 ≤ s) →
      0 ≤ l.foldl satisfactionStep a := by
  induction l with
  | nil => intro a ha _; simpa using ha
  | cons f rest ih =>
      intro a ha hall
      rw [List.foldl_cons]
      have hstep : 0 ≤ satisfactionStep a f := by
        cases hs : f.satisfaction with
        | none => simp [satisfactionStep, hs]
        | some s =>
            have hsn := hall f (List.mem_cons_self f rest) s hs
            simp only [satisfactionStep, hs]
            split
            · norm_num
            · linarith
      exact ih _ hstep (fun g hg s hs => hall g (List.mem_cons_of_mem f hg) s hs)

/-! ## Mean bounds -/

/-- Upper bound for the reduce-based means of the scoring engine. -/
theorem mean_le {α : Type} (g : α → ℚ) (l : List α) (B : ℚ)
    (h : ∀ x ∈ l, g x ≤ B) (hne : l.length ≠ 0) :
    (l.foldl (fun a b => a + g b) 0) / l.length ≤ B := by
  rw [foldl_add_eq_sum, zero_add]
  have hlen : (0:ℚ) < l.length := by
    have : 0 < l.length := Nat.pos_of_ne_zero hne
    exact_mod_cast this
  rw [div_le_iff₀ hlen]
  have hsum := List.sum_le_card_nsmul (l.map g) B (by
    intro x hx
    obtain ⟨y, hy, rfl⟩ := List.mem_map.mp hx
    exact h y hy)
  rw [List.length_map] at hsum
  calc (l.map g).sum ≤ l.length • B := hsum
    _ = B * l.length := by rw [nsmul_eq_mul]; ring

/-- Nonnegativity of the reduce-based means of the scoring engine. -/
theorem mean_nonneg {α : Type} (g : α → ℚ) (l : List α)
    (h : ∀ x ∈ l, 0 ≤ g x) :
    0 ≤ (l.foldl (fun a b => a + g b) 0) / l.length := by
  rw [foldl_add_eq_sum, zero_add]
  apply div_nonneg
  · apply List.sum_nonneg
    intro x hx
    obtain ⟨y, hy, rfl⟩ := List.mem_map.mp hx
    exact h y hy
  · positivity

/-! ## Claim theorems -/

/-- C1: For every set of checkin, feedback, and risk records with numeric
rating fields, Policy A's `computeHealthScore` and Policy B's
`calculateHealth` both return an integer score in [0, 100] inclusive. -/
theorem health_scores_in_range (project : Project) (risks : List Risk)
    (checkins : List Checkin) (feedbacks : List Feedback) :
    (0 ≤ computeHealthScore feedbacks checkins ∧
      computeHealthScore feedbacks checkins ≤ 100) ∧
    (0 ≤ calculateHealth project risks checkins feedbacks ∧
      calculateHealth project risks checkins feedbacks ≤ 100) := by
  refine ⟨⟨clampScore_nonneg _, clampScore_le _⟩, ?_, ?_⟩
  · exact le_jsRound_of_le (by exact_mod_cast clampQ_nonneg _)
  · exact jsRound_le_of_le (by exact_mod_cast clampQ_le _)

/-- A concrete sample project used in witnesses and counterexamples. -/
def sampleProject : Project :=
  ⟨"p1", "P", "d", 0, 1, "c", [], "On Track", 100, 0, 0⟩

/-- A concrete store holding one project and no checkin, feedback, or risk
records. -/
def sampleStore : Store := ⟨[sampleProject], [], [], []⟩

/-- Evaluation of the Policy A score on empty inputs:
round(5*20*0.4 + 5*20*0.4 + 0*0.2 - 0) = 80. -/
theorem computeHealthScore_nil_nil : computeHealthScore [] [] = 80 := by
  norm_num [computeHealthScore, rawScoreA, avgClient, avgConf, avgCompletion,
    flaggedCount, jsRound, clampScore]

/-- C2 counterexample: for a store whose sole project has zero feedback and
zero checkin records, the health endpoint returns score 80 with status
"On Track", not "At Risk" as the claim asserts. -/
theorem empty_inputs_status_not_at_risk :
    (healthEndpoint sampleStore "p1" 7).1 = Except.ok (80, "On Track") ∧
    (healthEndpoint sampleStore "p1" 7).1 ≠ Except.ok (80, "At Risk") := by
  have h : (healthEndpoint sampleStore "p1" 7).1 = Except.ok (80, "On Track") := by
    simp only [healthEndpoint, sampleStore, sampleProject, findProject, feedbacksFor,
      checkinsFor, List.find?, List.filter]
    norm_num [computeHealthScore_nil_nil, statusOf]
  exact ⟨h, by rw [h]; simp⟩

/-- C2 amended: for every project with zero feedback records and zero
checkin records, Policy A yields score round(5*20*0.4 + 5*20*0.4 + 0*0.2 - 0)
= 80 and status "On Track" (not "At Risk", since 80 is not < 80). -/
theorem empty_inputs_score_80 (store : Store) (pid : String) (now : ℕ)
    (project : Project) (hfind : findProject store pid = some project)
    (hfb : feedbacksFor store pid = []) (hck : checkinsFor store pid = []) :
    (healthEndpoint store pid now).1 = Except.ok (80, "On Track") := by
  unfold healthEndpoint
  rw [hfind]
  simp only [hfb, hck, computeHealthScore_nil_nil]
  norm_num [statusOf]

/-- C2 amended, witness at a concrete one-project store. -/
theorem empty_inputs_score_80_witness :
    (healthEndpoint sampleStore "p1" 7).1 = Except.ok (80, "On Track") :=
  empty_inputs_score_80 sampleStore "p1" 7 sampleProject rfl rfl rfl

/-- C3: the status the health endpoint returns is `statusOf` applied to the
score it returns, and `statusOf` classifies by thresholds: score < 60 is
Critical, 60 ≤ score < 80 is At Risk, 80 ≤ score is On Track; in
particular 59 ↦ Critical, 60 ↦ At Risk, 79 ↦ At Risk, 80 ↦ On Track. -/
theorem status_pure_function_of_score :
    (∀ (store : Store) (pid : String) (now : ℕ) (sc : ℤ) (st : String)
      (store2 : Store), healthEndpoint store pid now = (Except.ok (sc, st), store2) →
        st = statusOf sc) ∧
    (∀ s : ℤ, s < 60 → statusOf s = "Critical") ∧
    (∀ s : ℤ, 60 ≤ s → s < 80 → statusOf s = "At Risk") ∧
    (∀ s : ℤ, 80 ≤ s → statusOf s = "On Track") ∧
    statusOf 59 = "Critical" ∧ statusOf 60 = "At Risk" ∧
    statusOf 79 = "At Risk" ∧ statusOf 80 = "On Track" := by
  refine ⟨?_, ?_, ?_, ?_, rfl, rfl, rfl, rfl⟩
  · intro store pid now sc st store2 h
    unfold healthEndpoint at h
    cases hf : findProject store pid with
    | none => rw [hf] at h; exact absurd (congrArg Prod.fst h) (by simp)
    | some p =>
        rw [hf] at h
        simp only [Prod.mk.injEq, Except.ok.injEq, Prod.mk.injEq] at h
        obtain ⟨⟨hsc, hst⟩, -⟩ := h
        rw [← hsc, ← hst]
  · intro s h; unfold statusOf; rw [if_pos h]
  · intro s h1 h2; unfold statusOf; rw [if_neg (by omega), if_pos h2]
  · intro s h; unfold statusOf; rw [if_neg (by omega), if_neg (by omega)]

/-- C3 witness: the threshold components applied at the concrete scores
59, 60, 79 and 80, and the purity component applied at a concrete store. -/
theorem status_pure_function_of_score_witness :
    statusOf 59 = "Critical" ∧ statusOf 60 = "At Risk" ∧
    statusOf 79 = "At Risk" ∧ statusOf 80 = "On Track" ∧
    "On Track" = statusOf 80 :=
  ⟨status_pure_function_of_score.2.1 59 (by decide),
   status_pure_function_of_score.2.2.1 60 (by decide) (by decide),
   status_pure_function_of_score.2.2.1 79 (by decide) (by decide),
   status_pure_function_of_score.2.2.2.1 80 (by decide),
   status_pure_function_of_score.1 sampleStore "p1" 7 80 "On Track"
     (healthEndpoint sampleStore "p1" 7).2
     (Prod.ext (by
        simp only [healthEndpoint, sampleStore, sampleProject, findProject,
          feedbacksFor, checkinsFor, List.find?, List.filter]
        norm_num [computeHealthScore_nil_nil, statusOf]) rfl)⟩

/-- A concrete feedback record whose satisfaction field is present and
equal to 0. -/
def fbSatZero : Feedback := ⟨"p1", 3, some 0, 3, false⟩

/-- C4 counterexample: on a single feedback record with satisfaction 0
(no risks, no checkins) the code returns 100 — the reduce
`(a + b.satisfaction) || 5` resets the zero sum to 5, so the multiplier
is 1 — while the spec's formula (mean satisfaction 0, multiplier 0)
gives 0. -/
theorem calculateHealth_not_spec_formula :
    calculateHealth sampleProject [] [] [fbSatZero] = 100 ∧
    calculateHealthSpec [] [] [fbSatZero] = 0 ∧
    calculateHealth sampleProject [] [] [fbSatZero] ≠ calculateHealthSpec [] [] [fbSatZero] := by
  refine ⟨?_, ?_, ?_⟩ <;>
    norm_num [calculateHealth, calculateHealthSpec, highRisksCount, avgConf,
      avgConfSpec, avgSatisfactionB, avgSatisfactionSpec, satisfactionStep,
      clampQ, clampScore, jsRound, fbSatZero, List.filter]

/-- C4 amended: on every input whose feedback records all carry a present,
positive numeric satisfaction value, `calculateHealth` computes exactly the
spec's multiplicative formula (risk subtraction, confidence multiplier,
satisfaction multiplier, clamp-and-round into [0,100]). -/
theorem calculateHealth_matches_spec (project : Project) (risks : List Risk)
    (checkins : List Checkin) (feedbacks : List Feedback)
    (hpos : ∀ f ∈ feedbacks, ∃ s, f.satisfaction = some s ∧ 0 < s) :
    calculateHealth project risks checkins feedbacks =
      calculateHealthSpec risks checkins feedbacks := by
  unfold calculateHealth calculateHealthSpec
  rw [jsRound_clampQ]
  have hsat : avgSatisfactionB feedbacks = avgSatisfactionSpec feedbacks := by
    unfold avgSatisfactionB avgSatisfactionSpec
    rw [foldl_satisfactionStep_pos feedbacks 0 le_rfl hpos, zero_add]
  have hconf : avgConf checkins = avgConfSpec checkins := by
    unfold avgConf avgConfSpec
    rw [foldl_add_eq_sum, zero_add]
  rw [hsat, hconf]
  congr 2
  ring

/-- C4 amended, witness: one feedback with satisfaction 4, no risks, no
checkins; both sides evaluate to round(100 * 1 * (4/5)) = 80. -/
theorem calculateHealth_matches_spec_witness :
    calculateHealth sampleProject [] [] [⟨"p1", 4, some 4, 4, false⟩] =
      calculateHealthSpec [] [] [⟨"p1", 4, some 4, 4, false⟩] ∧
    calculateHealthSpec [] [] [⟨"p1", 4, some 4, 4, false⟩] = 80 := by
  constructor
  · exact calculateHealth_matches_spec sampleProject [] [] _ (by
      intro f hf
      simp only [List.mem_singleton] at hf
      exact ⟨4, by rw [hf], by norm_num⟩)
  · norm_num [calculateHealthSpec, highRisksCount, avgConfSpec,
      avgSatisfactionSpec, clampScore, jsRound, List.filter]

/-- C5: for every non-empty list of feedback records that lack a numeric
satisfaction field — the shape this server's feedback endpoints persist,
which store `satisfactionRating` instead — the satisfaction aggregate of
`calculateHealth` evaluates to 5/n (not the default 5), so the
satisfaction multiplier is 1/n and shrinks toward 0 as the feedback count
grows, regardless of the ratings' values. -/
theorem missing_satisfaction_aggregate (feedbacks : List Feedback)
    (hne : feedbacks ≠ [])
    (hnone : ∀ f ∈ feedbacks, f.satisfaction = none) :
    avgSatisfactionB feedbacks = 5 / feedbacks.length ∧
    avgSatisfactionB feedbacks / 5 = 1 / feedbacks.length := by
  have hlen : feedbacks.length ≠ 0 := fun h => hne (List.length_eq_zero.mp h)
  have hmain : avgSatisfactionB feedbacks = 5 / feedbacks.length := by
    unfold avgSatisfactionB
    rw [if_pos hlen, foldl_satisfactionStep_none feedbacks 0 hnone hne]
  refine ⟨hmain, ?_⟩
  rw [hmain]
  have : ((feedbacks.length : ℚ)) ≠ 0 := by exact_mod_cast hlen
  field_simp
  ring

/-- C5 witness: two stored-shape feedback records (satisfaction absent);
the aggregate is 5/2 and the multiplier 1/2. -/
theorem missing_satisfaction_aggregate_witness :
    avgSatisfactionB [⟨"p1", 4, none, 4, false⟩, ⟨"p1", 5, none, 5, true⟩] = 5/2 ∧
    avgSatisfactionB [⟨"p1", 4, none, 4, false⟩, ⟨"p1", 5, none, 5, true⟩] / 5 = 1/2 := by
  have h := missing_satisfaction_aggregate
    [⟨"p1", 4, none, 4, false⟩, ⟨"p1", 5, none, 5, true⟩]
    (by simp)
    (by
      intro f hf
      rcases List.mem_cons.mp hf with h1 | h2
      · rw [h1]
      · rw [List.mem_singleton.mp h2])
  simpa using h

theorem avgConf_nonneg {checkins : List Checkin}
    (h : ∀ c ∈ checkins, 0 ≤ c.confidenceLevel) : 0 ≤ avgConf checkins := by
  unfold avgConf
  split
  · exact mean_nonneg _ checkins h
  · norm_num

theorem avgSatisfactionB_nonneg {feedbacks : List Feedback}
    (h : ∀ f ∈ feedbacks, ∀ s, f.satisfaction = some s → 0 ≤ s) :
    0 ≤ avgSatisfactionB feedbacks := by
  unfold avgSatisfactionB
  split
  · apply div_nonneg (foldl_satisfactionStep_nonneg feedbacks 0 le_rfl h)
    positivity
  · norm_num

theorem highRisksCount_cons {r : Risk} (hsev : r.severity = "High")
    (hst : r.status = "Open") (risks : List Risk) :
    highRisksCount (r :: risks) = highRisksCount risks + 1 := by
  unfold highRisksCount
  rw [List.filter_cons_of_pos]
  · simp [List.length_cons]
  · simp [hsev, hst]

/-- C6: for a fixed project, checkin set, and feedback set with
nonnegative rating values, adding one more risk with severity High and
status Open never increases the Policy B score. -/
theorem adding_high_open_risk_never_increases (project : Project) (r : Risk)
    (risks : List Risk) (checkins : List Checkin) (feedbacks : List Feedback)
    (hsev : r.severity = "High") (hst : r.status = "Open")
    (hconf : ∀ c ∈ checkins, 0 ≤ c.confidenceLevel)
    (hsat : ∀ f ∈ feedbacks, ∀ s, f.satisfaction = some s → 0 ≤ s) :
    calculateHealth project (r :: risks) checkins feedbacks ≤
      calculateHealth project risks checkins feedbacks := by
  unfold calculateHealth
  apply jsRound_mono
  apply clampQ_mono
  have hc : (0:ℚ) ≤ avgConf checkins / 5 := by
    have := avgConf_nonneg hconf
    linarith
  have hs : (0:ℚ) ≤ avgSatisfactionB feedbacks / 5 := by
    have := avgSatisfactionB_nonneg hsat
    linarith
  have hcount : ((highRisksCount (r :: risks) : ℚ)) = (highRisksCount risks : ℚ) + 1 := by
    rw [highRisksCount_cons hsev hst]
    push_cast
    ring
  rw [hcount]
  apply mul_le_mul_of_nonneg_right _ hs
  apply mul_le_mul_of_nonneg_right _ hc
  linarith

/-- C6 witness: one High/Open risk against none, with one checkin of
confidence 5 and one feedback of satisfaction 5. -/
theorem adding_high_open_risk_never_increases_witness :
    calculateHealth sampleProject
        [⟨"p1", "t", "High", "Open", "e1"⟩] [⟨"p1", "e1", "w", 5, 50⟩]
        [⟨"p1", 5, some 5, 5, false⟩] ≤
      calculateHealth sampleProject
        [] [⟨"p1", "e1", "w", 5, 50⟩] [⟨"p1", 5, some 5, 5, false⟩] := by
  apply adding_high_open_risk_never_increases sampleProject
      ⟨"p1", "t", "High", "Open", "e1"⟩ [] _ _ rfl rfl
  · intro c hc
    rw [List.mem_singleton.mp hc]
    norm_num
  · intro f hf s hs
    rw [List.mem_singleton.mp hf] at hs
    simp only [Option.some.injEq] at hs
    rw [← hs]
    norm_num

theorem avgClient_le {feedbacks : List Feedback}
    (h : ∀ f ∈ feedbacks, f.satisfactionRating ≤ 5) : avgClient feedbacks ≤ 5 := by
  unfold avgClient
  split
  · exact mean_le _ feedbacks 5 h (by assumption)
  · norm_num

theorem avgConf_le {checkins : List Checkin}
    (h : ∀ c ∈ checkins, c.confidenceLevel ≤ 5) : avgConf checkins ≤ 5 := by
  unfold avgConf
  split
  · exact mean_le _ checkins 5 h (by assumption)
  · norm_num

theorem avgCompletion_le {checkins : List Checkin}
    (h : ∀ c ∈ checkins, c.completionPercentage ≤ 100) :
    avgCompletion checkins ≤ 100 := by
  unfold avgCompletion
  split
  · exact mean_le _ checkins 100 h (by assumption)
  · norm_num

/-- With in-scale ratings (satisfaction and confidence at most 5,
completion at most 100) the raw Policy A score is at most 100. -/
theorem rawScoreA_le_100 {feedbacks : List Feedback} {checkins : List Checkin}
    (hsat : ∀ f ∈ feedbacks, f.satisfactionRating ≤ 5)
    (hconf : ∀ c ∈ checkins, c.confidenceLevel ≤ 5)
    (hcomp : ∀ c ∈ checkins, c.completionPercentage ≤ 100) :
    rawScoreA feedbacks checkins ≤ 100 := by
  unfold rawScoreA
  have h1 := avgClient_le hsat
  have h2 := avgConf_le hconf
  have h3 := avgCompletion_le hcomp
  have h4 : (0:ℚ) ≤ (flaggedCount feedbacks : ℚ) := by positivity
  linarith

theorem flaggedCount_cons {f : Feedback} (hflag : f.flaggedIssue = true)
    (feedbacks : List Feedback) :
    flaggedCount (f :: feedbacks) = flaggedCount feedbacks + 1 := by
  unfold flaggedCount
  rw [List.filter_cons_of_pos (by simp [hflag])]
  simp [List.length_cons]

/-- Appending one flagged feedback that leaves the satisfaction mean
unchanged lowers the raw Policy A score by exactly 5. -/
theorem rawScoreA_cons_flagged {f : Feedback} {feedbacks : List Feedback}
    (checkins : List Checkin) (hflag : f.flaggedIssue = true)
    (hmean : avgClient (f :: feedbacks) = avgClient feedbacks) :
    rawScoreA (f :: feedbacks) checkins = rawScoreA feedbacks checkins - 5 := by
  unfold rawScoreA
  rw [hmean, flaggedCount_cons hflag]
  push_cast
  ring

theorem clampScore_of_neg {z : ℤ} (h : z < 0) : clampScore z = 0 := by
  unfold clampScore
  split_ifs <;> omega

/-- C7: all else equal — same checkins, and a new flagged feedback that
leaves the feedback satisfaction mean unchanged — with in-scale ratings,
the Policy A score strictly decreases by exactly 5 per additional flagged
feedback as long as the lowered score has not reached the 0 clamp, and
is clamped at 0 once the rounded raw score drops below 5. -/
theorem flagged_feedback_penalty (f : Feedback) (feedbacks : List Feedback)
    (checkins : List Checkin)
    (hflag : f.flaggedIssue = true)
    (hmean : avgClient (f :: feedbacks) = avgClient feedbacks)
    (hsat : ∀ g ∈ feedbacks, g.satisfactionRating ≤ 5)
    (hconf : ∀ c ∈ checkins, c.confidenceLevel ≤ 5)
    (hcomp : ∀ c ∈ checkins, c.completionPercentage ≤ 100) :
    (5 ≤ jsRound (rawScoreA feedbacks checkins) →
      computeHealthScore (f :: feedbacks) checkins =
        computeHealthScore feedbacks checkins - 5) ∧
    (jsRound (rawScoreA feedbacks checkins) < 5 →
      computeHealthScore (f :: feedbacks) checkins = 0) := by
  have hraw : rawScoreA (f :: feedbacks) checkins = rawScoreA feedbacks checkins - 5 :=
    rawScoreA_cons_flagged checkins hflag hmean
  have hround : jsRound (rawScoreA (f :: feedbacks) checkins) =
      jsRound (rawScoreA feedbacks checkins) - 5 := by
    rw [hraw, show (5:ℚ) = ((5:ℤ):ℚ) by norm_num, jsRound_sub_intCast]
  have h100 : jsRound (rawScoreA feedbacks checkins) ≤ 100 :=
    jsRound_le_of_le (by
      have := rawScoreA_le_100 hsat hconf hcomp
      push_cast
      linarith)
  constructor
  · intro h5
    unfold computeHealthScore
    rw [hround, clampScore_eq_self (by omega) (by omega),
      clampScore_eq_self (by omega) h100]
  · intro h5
    unfold computeHealthScore
    rw [hround, clampScore_of_neg (by omega)]

/-- C7 witness: appending a flagged feedback with rating 5 to one
unflagged rating-5 feedback (no checkins) keeps the mean at 5 and drops
the score from 80 to 75. -/
theorem flagged_feedback_penalty_witness :
    computeHealthScore [⟨"p1", 5, none, 5, true⟩, ⟨"p1", 5, none, 5, false⟩] [] =
      computeHealthScore [⟨"p1", 5, none, 5, false⟩] [] - 5 := by
  apply (flagged_feedback_penalty ⟨"p1", 5, none, 5, true⟩
      [⟨"p1", 5, none, 5, false⟩] [] rfl ?_ ?_ ?_ ?_).1 ?_
  · norm_num [avgClient]
  · intro g hg
    rw [List.mem_singleton.mp hg]
  · intro c hc
    exact absurd hc (List.not_mem_nil c)
  · intro c hc
    exact absurd hc (List.not_mem_nil c)
  · norm_num [rawScoreA, avgClient, avgConf, avgCompletion, flaggedCount,
      jsRound, List.filter]

/-- C8: if the referenced project does not exist, the health computation
returns the Not-Found error and leaves the store — every project's score,
status and timestamp included — entirely unchanged; no partial result is
produced. -/
theorem notfound_no_write (store : Store) (pid : String) (now : ℕ)
    (h : findProject store pid = none) :
    healthEndpoint store pid now = (Except.error "Project not found", store) := by
  unfold healthEndpoint
  rw [h]

/-- C8 witness: looking up any project in the empty store fails and
writes nothing. -/
theorem notfound_no_write_witness :
    healthEndpoint ⟨[], [], [], []⟩ "p1" 7 =
      (Except.error "Project not found", ⟨[], [], [], []⟩) :=
  notfound_no_write ⟨[], [], [], []⟩ "p1" 7 rfl

/-- C9: `missingCheckinsThisPeriod` returns exactly the stored projects
for which no checkin with the current period label exists from any
employee; on a store with 3 projects of which only the first has a
checkin in the current period, it returns the other 2. -/
theorem missingCheckins_characterization :
    (∀ (store : Store) (week : String) (p : Project),
      p ∈ missingCheckinsThisPeriod store week ↔
        p ∈ store.projects ∧
          ∀ c ∈ store.checkins, c.week = week → c.projectId ≠ p.id) ∧
    missingCheckinsThisPeriod
        ⟨[⟨"a", "A", "d", 0, 1, "c", [], "On Track", 100, 0, 0⟩,
          ⟨"b", "B", "d", 0, 1, "c", [], "On Track", 100, 0, 0⟩,
          ⟨"c", "C", "d", 0, 1, "c", [], "On Track", 100, 0, 0⟩],
         [⟨"a", "e1", "2025-W41", 3, 50⟩], [], []⟩ "2025-W41" =
      [⟨"b", "B", "d", 0, 1, "c", [], "On Track", 100, 0, 0⟩,
       ⟨"c", "C", "d", 0, 1, "c", [], "On Track", 100, 0, 0⟩] := by
  constructor
  · intro store week p
    unfold missingCheckinsThisPeriod
    rw [List.mem_filter]
    constructor
    · rintro ⟨hp, hnone⟩
      refine ⟨hp, ?_⟩
      intro c hc hw hpid
      have hcmem : c ∈ store.checkins.filter (fun c => c.week == week) :=
        List.mem_filter.mpr ⟨hc, by simp [hw]⟩
      have : (store.checkins.filter (fun c => c.week == week)).any
          (fun c => c.projectId == p.id) = true :=
        List.any_eq_true.mpr ⟨c, hcmem, by simp [hpid]⟩
      rw [this] at hnone
      exact absurd hnone (by simp)
    · rintro ⟨hp, hnone⟩
      refine ⟨hp, ?_⟩
      rw [Bool.not_eq_true', List.any_eq_false]
      intro c hcmem
      obtain ⟨hc, hw⟩ := List.mem_filter.mp hcmem
      simp only [beq_iff_eq] at hw ⊢
      exact hnone c hc hw
  · rfl

/-- Two projects agree on every field except the derived `healthScore`,
`status`, and `updatedAt`. -/
def agreesExceptHealth (p q : Project) : Prop :=
  p.id = q.id ∧ p.name = q.name ∧ p.description = q.description ∧
  p.startDate = q.startDate ∧ p.endDate = q.endDate ∧ p.client = q.client ∧
  p.employees = q.employees ∧ p.createdAt = q.createdAt

theorem agreesExceptHealth_refl (p : Project) : agreesExceptHealth p p :=
  ⟨rfl, rfl, rfl, rfl, rfl, rfl, rfl, rfl⟩

theorem forall2_agrees_refl (l : List Project) :
    List.Forall₂ agreesExceptHealth l l := by
  induction l with
  | nil => exact List.Forall₂.nil
  | cons p rest ih => exact List.Forall₂.cons (agreesExceptHealth_refl p) ih

/-- C10: a health computation never mutates or deletes any checkin,
feedback, or risk record, and its only write to the projects collection
changes nothing but `healthScore`, `status`, and `updatedAt`: every
project, targeted or not, keeps its identifier, name, description,
dates, client, employees and creation timestamp. -/
theorem health_computation_frame (store : Store) (pid : String) (now : ℕ) :
    (healthEndpoint store pid now).2.checkins = store.checkins ∧
    (healthEndpoint store pid now).2.feedbacks = store.feedbacks ∧
    (healthEndpoint store pid now).2.risks = store.risks ∧
    List.Forall₂ agreesExceptHealth
      (healthEndpoint store pid now).2.projects store.projects := by
  unfold healthEndpoint
  cases h : findProject store pid with
  | none => exact ⟨rfl, rfl, rfl, forall2_agrees_refl store.projects⟩
  | some p =>
      refine ⟨rfl, rfl, rfl, ?_⟩
      show List.Forall₂ agreesExceptHealth (store.projects.map _) store.projects
      induction store.projects with
      | nil => exact List.Forall₂.nil
      | cons q rest ih =>
          rw [List.map_cons]
          refine List.Forall₂.cons ?_ ih
          by_cases hq : q.id == pid
          · simp only [if_pos hq]
            exact ⟨rfl, rfl, rfl, rfl, rfl, rfl, rfl, rfl⟩
          · simp only [if_neg hq]
            exact agreesExceptHealth_refl q

end PulseServer
